import Mathlib

/-!
Formal model of `change_tempo_and_pitch_via_sample_rate.py`.

The script reads a WAV file with Python's standard-library `wave` module,
copies the frame payload unchanged, and writes a new WAV file whose header
carries a caller-supplied sample rate.  The script itself contains only
`get_path_name`, `change_sample_rate` and `main`; all WAV container parsing
and serialization it performs is the behaviour of the standard-library
`wave` module (`Wave_read.initfp`, `Wave_read._read_fmt_chunk`,
`Wave_read.readframes`, `Wave_write.setparams`, `Wave_write._write_header`,
`Wave_write._patchheader`, `_Chunk`), which is embedded here as well, from
its source, so that the script's observable behaviour is a function of the
input path, the input file's bytes, and the requested rate.

Modelling conventions:
* a file is a list of byte values (`List Nat`, each entry a byte 0..255);
* the byte stream of an inner RIFF chunk is flattened: the model tracks the
  outer chunk's remaining *declared* size `d` alongside the *actual*
  remaining bytes `b` (with `b.length ≤ d` by construction), because
  `_Chunk.read` clamps by the declared size while the operating-system read
  clamps by the bytes that exist, and `_Chunk.seek` bound-checks against
  declared sizes only;
* the host is little-endian (no byte swap in `readframes`/`writeframesraw`)
  and the files named by the script open successfully, so operating-system
  I/O errors are outside the model;
* Python exceptions become values of `PyExc`; an exception raised inside a
  `with wave.open(...)` body is superseded by an exception raised by the
  implicit `close()` on exit, exactly as in CPython, and the model records
  the exception that finally reaches the `except` clause;
* the embedded `wave` module follows the CPython 3.11 source (which already
  inlines `_Chunk`); CPython 3.12+ additionally accepts
  `WAVE_FORMAT_EXTENSIBLE` format chunks with a PCM subformat, a branch no
  statement below touches, so the model reports `unknown format` for that
  tag as 3.11 does.
-/

/-- A file's contents: one `Nat` per byte. -/
abbrev Bytes := List Nat

/-- Little-endian bytes of a 16-bit unsigned value, as `struct.pack` emits. -/
def le16 (n : Nat) : Bytes := [n % 256, n / 256 % 256]

/-- Little-endian bytes of a 32-bit unsigned value, as `struct.pack` emits. -/
def le32 (n : Nat) : Bytes :=
  [n % 256, n / 256 % 256, n / 65536 % 256, n / 16777216 % 256]

/-- Value of two little-endian bytes, as `struct.unpack` reads (callers guard the length). -/
def dec16 : Bytes → Nat
  | [a, b] => a + 256 * b
  | _ => 0

/-- Value of four little-endian bytes, as `struct.unpack` reads (callers guard the length). -/
def dec32 : Bytes → Nat
  | [a, b, c, d] => a + 256 * b + 65536 * c + 16777216 * d
  | _ => 0

/-- The ASCII bytes of the RIFF container tag. -/
def tagRIFF : Bytes := [82, 73, 70, 70]

/-- The ASCII bytes of the WAVE format tag. -/
def tagWAVE : Bytes := [87, 65, 86, 69]

/-- The ASCII bytes of the format chunk id, including its trailing space. -/
def tagFmt : Bytes := [102, 109, 116, 32]

/-- The ASCII bytes of the data chunk id. -/
def tagData : Bytes := [100, 97, 116, 97]

/-- The Python exceptions the script can catch, with the message text that
`print(f quote Error: ... quote)` would interpolate.  `structError` keeps a
fixed abbreviated message: CPython's text names the offending pack field
and no theorem below depends on it. -/
inductive PyExc where
  | waveError (msg : String)
  | eofError
  | structError
  | typeError (msg : String)
  | runtimeError
deriving DecidableEq

/-- Message of `wave.Error('file does not start with RIFF id')`. -/
def notRiffMsg : String := "file does not start with RIFF id"

/-- Message of `wave.Error('not a WAVE file')`. -/
def notWaveMsg : String := "not a WAVE file"

/-- Message of `wave.Error('fmt chunk and/or data chunk missing')`. -/
def chunkMissingMsg : String := "fmt chunk and/or data chunk missing"

/-- Message of `wave.Error('data chunk before fmt chunk')`. -/
def dataBeforeFmtMsg : String := "data chunk before fmt chunk"

/-- Message of `wave.Error('bad sample width')`. -/
def badSampWidthMsg : String := "bad sample width"

/-- Message of `wave.Error('bad # of channels')`. -/
def badChannelsMsg : String := "bad # of channels"

/-- Message of `wave.Error('unknown format: %r')` for a format tag. -/
def unknownFormatMsg (t : Nat) : String := "unknown format: " ++ toString t

/-- Message raised by `Wave_write.close` when `setnchannels` failed. -/
def chanNotSpecMsg : String := "# channels not specified"

/-- Message raised by `Wave_write.close` when `setsampwidth` failed. -/
def sampNotSpecMsg : String := "sample width not specified"

/-- Message raised by `Wave_write.close` when `setframerate` failed. -/
def rateNotSpecMsg : String := "sampling rate not specified"

/-- Message of the `TypeError` raised by `None + str` at line 94. -/
def noneAddMsg : String :=
  "unsupported operand type(s) for +: \x27NoneType\x27 and \x27str\x27"

/-- The message text Python would print for an exception. -/
def excMsg : PyExc → String
  | .waveError m => m
  | .eofError => ""
  | .structError => "argument out of range"
  | .typeError m => m
  | .runtimeError => ""

/-- The single line printed by `except Exception as e: print(f quote Error: ... quote)`. -/
def errLine (e : PyExc) : String := "Error: " ++ excMsg e

/-- Fields extracted by `Wave_read._read_fmt_chunk`. -/
structure FmtInfo where
  nchannels : Nat
  sampwidth : Nat
  framerate : Nat
deriving DecidableEq

/-- Result of a successful `wave.open(..., 'rb')`: the parameters plus the
bytes the data chunk can actually deliver (already clamped by the declared
data size, the declared RIFF size, and the bytes physically present). -/
structure WavRead where
  nchannels : Nat
  sampwidth : Nat
  framerate : Nat
  nframes : Nat
  dataAvail : Bytes
deriving DecidableEq

deriving instance DecidableEq for Except

/-- Model of `Wave_read._read_fmt_chunk` on a chunk of declared size `sz`, inside an
outer chunk with `d1` declared bytes remaining, of which `b1` physically
exist.  Reads 14 bytes (`wFormatTag`, `nchannels`, `framerate`, plus
`dwAvgBytesPerSec` and `wBlockAlign`, which it discards), requires PCM,
then reads 2 more bytes of bits-per-sample; a short read surfaces as
`EOFError`.  Sample width is `(bits + 7) // 8`. -/
def read_fmt_chunk (sz d1 : Nat) (b1 : Bytes) : Except PyExc FmtInfo :=
  if min (min 14 sz) (min d1 b1.length) < 14 then .error .eofError
  else
    if dec16 ((b1.take 14).take 2) ≠ 1 then
      .error (.waveError (unknownFormatMsg (dec16 ((b1.take 14).take 2))))
    else if min (min 2 (sz - 14)) (min (d1 - 14) (b1.length - 14)) < 2 then
      .error .eofError
    else if (dec16 ((b1.drop 14).take 2) + 7) / 8 = 0 then
      .error (.waveError badSampWidthMsg)
    else if dec16 (((b1.take 14).drop 2).take 2) = 0 then
      .error (.waveError badChannelsMsg)
    else
      .ok ⟨dec16 (((b1.take 14).drop 2).take 2),
           (dec16 ((b1.drop 14).take 2) + 7) / 8,
           dec32 (((b1.take 14).drop 4).take 4)⟩

/-- The `while 1` chunk loop of `Wave_read.initfp`, flattened.  `d` is the
outer RIFF chunk's declared remaining size, `b` the bytes that physically
remain (`b.length ≤ d`), `fmt` the information from an already-seen format
chunk.  Each iteration reads an 8-byte chunk header (a short read is the
`EOFError` that breaks the loop, after which the missing-chunk error is
raised, since the data chunk has not been found), then dispatches on the
chunk id; skipping a chunk seeks past its payload plus a pad byte when the
declared size is odd, and `_Chunk.seek` raises `RuntimeError` when that
seek leaves the declared bounds of the outer chunk.  The first argument is
fuel: every iteration consumes at least 8 declared bytes, so any fuel
larger than `d / 8` suffices and callers pass `d + 5`; the fuel-exhausted
value is never reached then. -/
def scanChunks : Nat → Nat → Bytes → Option FmtInfo → Except PyExc WavRead
  | 0, _, _, _ => .error (.waveError chunkMissingMsg)
  | fuel + 1, d, b, fmt =>
    if min d b.length < 8 then .error (.waveError chunkMissingMsg)
    else
      if b.take 4 = tagFmt then
        match read_fmt_chunk (dec32 ((b.drop 4).take 4)) (d - 8) (b.drop 8) with
        | .error e => .error e
        | .ok fi =>
          if d - 8 - 16 <
              dec32 ((b.drop 4).take 4) - 16 +
                (if dec32 ((b.drop 4).take 4) % 2 = 1 then 1 else 0) then
            .error .runtimeError
          else
            scanChunks fuel
              (d - 8 - 16 -
                (dec32 ((b.drop 4).take 4) - 16 +
                  (if dec32 ((b.drop 4).take 4) % 2 = 1 then 1 else 0)))
              (((b.drop 8).drop 16).drop
                (dec32 ((b.drop 4).take 4) - 16 +
                  (if dec32 ((b.drop 4).take 4) % 2 = 1 then 1 else 0)))
              (some fi)
      else if b.take 4 = tagData then
        match fmt with
        | none => .error (.waveError dataBeforeFmtMsg)
        | some fi =>
          .ok ⟨fi.nchannels, fi.sampwidth, fi.framerate,
               dec32 ((b.drop 4).take 4) / (fi.nchannels * fi.sampwidth),
               (b.drop 8).take (dec32 ((b.drop 4).take 4))⟩
      else
        if d - 8 <
            dec32 ((b.drop 4).take 4) +
              (if dec32 ((b.drop 4).take 4) % 2 = 1 then 1 else 0) then
          .error .runtimeError
        else
          scanChunks fuel
            (d - 8 -
              (dec32 ((b.drop 4).take 4) +
                (if dec32 ((b.drop 4).take 4) % 2 = 1 then 1 else 0)))
            ((b.drop 8).drop
              (dec32 ((b.drop 4).take 4) +
                (if dec32 ((b.drop 4).take 4) % 2 = 1 then 1 else 0)))
            fmt

/-- Model of `Wave_read.initfp` on a file's bytes: the outer `_Chunk` header (two
4-byte reads, each raising `EOFError` when short), the RIFF id check, the
`WAVE` tag read (clamped by the declared RIFF size and the bytes present),
then the chunk loop restricted to the RIFF chunk's declared extent. -/
def initfp (f : Bytes) : Except PyExc WavRead :=
  if f.length < 4 then .error .eofError
  else if f.length < 8 then .error .eofError
  else if f.take 4 ≠ tagRIFF then .error (.waveError notRiffMsg)
  else if (f.drop 8).take (min 4 (dec32 ((f.drop 4).take 4))) ≠ tagWAVE then
    .error (.waveError notWaveMsg)
  else
    scanChunks (dec32 ((f.drop 4).take 4) + 5)
      (dec32 ((f.drop 4).take 4) - 4)
      ((f.drop 12).take (dec32 ((f.drop 4).take 4) - 4))
      none

/-- The bytes `in_wav.readframes(num_frames)` returns: at most
`nframes * framesize` bytes of what the data chunk can deliver. -/
def frameBytes (r : WavRead) : Bytes :=
  r.dataAvail.take (r.nframes * (r.nchannels * r.sampwidth))

/-- The index `max([path_name_wav.rfind(c) for two separators])` is built
from: last index of `c` in the list, or `none`. -/
def rfindAux : List Char → Char → Option Nat
  | [], _ => none
  | a :: as, c =>
    match rfindAux as c with
    | some i => some (i + 1)
    | none => if a = c then some 0 else none

/-- Python's `str.rfind`: last index of the character, `-1` when absent. -/
def rfindI (s : List Char) (c : Char) : Int :=
  match rfindAux s c with
  | some i => (i : Int)
  | none => -1

/-- Index `end_of_path` in `get_path_name`: the larger of the last positions of
the two separator characters, `-1` when neither occurs. -/
def end_of_path (p : List Char) : Int := max (rfindI p '/') (rfindI p '\\')

/-- Model of `get_path_name`: the name is the slice from just past the last
separator up to four characters before the end (Python `p[e+1:-4]`, with
both bounds clamped); the path is the prefix through the last separator,
or `None` when there is no separator. -/
def get_path_name (p : List Char) : Option (List Char) × List Char :=
  (if end_of_path p > -1 then some (p.take (end_of_path p + 1).toNat) else none,
   (p.take (p.length - 4)).drop (end_of_path p + 1).toNat)

/-- The characters of the literal `'.wav'`. -/
def wavExt : List Char := ['.', 'w', 'a', 'v']

/-- The characters of the suffix
`f quote --sample_rate_changed__[old]_to_[new] quote` interpolated with the
two rates. -/
def suffixName (old : Nat) (new : Int) : List Char :=
  "--sample_rate_changed__".toList ++ (toString old).toList ++
    "_to_".toList ++ (toString new).toList

/-- Output path `path + input_wav_name + suffix + '.wav'` (lines 92-94). -/
def outputName (input_wav path : List Char) (old : Nat) (new : Int) : List Char :=
  path ++ (get_path_name input_wav).2 ++ suffixName old new ++ wavExt

/-- The success line printed at line 105. -/
def okLine (old : Nat) (new : Int) (outPath : List Char) : String :=
  "Sample rate changed from " ++ toString old ++ " Hz to " ++ toString new ++
    " Hz and saved as " ++ String.mk outPath

/-- Everything observable about one `change_sample_rate` call: the line it
prints, the output file it leaves behind (`none` when no file was ever
created), and the exception its `except` clause caught (`none` on
success). -/
structure RunOutcome where
  printed : String
  outputFile : Option (List Char × Bytes)
  err : Option PyExc
deriving DecidableEq

/-- Value `Wave_write._write_header` sets:
`_datalength = _nframes * _nchannels * _sampwidth`, after replacing a zero
`_nframes` by `len(data) // framesize`. -/
def datalength (r : WavRead) : Nat :=
  (if r.nframes = 0 then (frameBytes r).length / (r.nchannels * r.sampwidth)
   else r.nframes) * (r.nchannels * r.sampwidth)

/-- The condition under which `struct.pack('<L4s4sLHHLLHH4s', ...)` in
`_write_header` raises `struct.error`: some unsigned field is out of
range. -/
def packOverflow (r : WavRead) (fr : Nat) : Prop :=
  4294967296 ≤ 36 + datalength r ∨ 65536 ≤ r.nchannels ∨ 4294967296 ≤ fr ∨
    4294967296 ≤ r.nchannels * fr * r.sampwidth ∨
    65536 ≤ r.nchannels * r.sampwidth ∨ 65536 ≤ r.sampwidth * 8

instance (r : WavRead) (fr : Nat) : Decidable (packOverflow r fr) := by
  unfold packOverflow; infer_instance

/-- The byte layout `_write_header` emits: `RIFF`, overall length, `WAVE`,
the 16-byte PCM format chunk, then the data chunk header and payload. -/
def wavFileBytes (riffLen dl nch fr sw : Nat) (frames : Bytes) : Bytes :=
  tagRIFF ++ le32 riffLen ++ tagWAVE ++ tagFmt ++ le32 16 ++ le16 1 ++
    le16 nch ++ le32 fr ++ le32 (nch * fr * sw) ++ le16 (nch * sw) ++
    le16 (sw * 8) ++ tagData ++ le32 dl ++ frames

/-- An in-place overwrite at a byte offset, as `seek` + `write` performs. -/
def spliceAt (l : Bytes) (pos : Nat) (repl : Bytes) : Bytes :=
  l.take pos ++ repl ++ l.drop (pos + repl.length)

/-- The output file's final bytes on the success path: the header written
with the declared frame count, then, when the bytes actually written
differ from `_datalength`, the two length fields patched in place by
`_patchheader` (at offsets 4 and 40; that patch's own `struct.pack` cannot
overflow because the written length never exceeds `_datalength`). -/
def writtenBytes (r : WavRead) (fr : Nat) : Bytes :=
  if datalength r = (frameBytes r).length then
    wavFileBytes (36 + datalength r) (datalength r) r.nchannels fr
      r.sampwidth (frameBytes r)
  else
    spliceAt
      (spliceAt
        (wavFileBytes (36 + datalength r) (datalength r) r.nchannels fr
          r.sampwidth (frameBytes r))
        4 (le32 (36 + (frameBytes r).length)))
      40 (le32 (frameBytes r).length)

/-- Model of `change_sample_rate(input_wav, new_sample_rate)` run against a file
whose bytes are `fileBytes`.  Mirrors lines 79-108 of the script: parse
the input (any exception is caught and printed), build the output path
(the `None + str` `TypeError` for separator-free inputs included), create
the output file, `setparams` (whose failures leave the just-created file
empty and surface, via the `with`-exit `close()`, as the corresponding
not-specified `wave.Error`), read the frames, write header and frames
(a `struct.error` leaves two stray `RIFF` tags from the two header
attempts), patch the header lengths, and print the success line. -/
def change_sample_rate (input_wav : List Char) (fileBytes : Bytes)
    (new_sample_rate : Int) : RunOutcome :=
  match initfp fileBytes with
  | .error e => ⟨errLine e, none, some e⟩
  | .ok r =>
    match (get_path_name input_wav).1 with
    | none => ⟨errLine (.typeError noneAddMsg), none, some (.typeError noneAddMsg)⟩
    | some path =>
      if r.nchannels < 1 then
        ⟨errLine (.waveError chanNotSpecMsg),
         some (outputName input_wav path r.framerate new_sample_rate, []),
         some (.waveError chanNotSpecMsg)⟩
      else if r.sampwidth < 1 ∨ 4 < r.sampwidth then
        ⟨errLine (.waveError sampNotSpecMsg),
         some (outputName input_wav path r.framerate new_sample_rate, []),
         some (.waveError sampNotSpecMsg)⟩
      else if new_sample_rate ≤ 0 then
        ⟨errLine (.waveError rateNotSpecMsg),
         some (outputName input_wav path r.framerate new_sample_rate, []),
         some (.waveError rateNotSpecMsg)⟩
      else if packOverflow r new_sample_rate.toNat then
        ⟨errLine .structError,
         some (outputName input_wav path r.framerate new_sample_rate,
               tagRIFF ++ tagRIFF),
         some .structError⟩
      else
        ⟨okLine r.framerate new_sample_rate
           (outputName input_wav path r.framerate new_sample_rate),
         some (outputName input_wav path r.framerate new_sample_rate,
               writtenBytes r new_sample_rate.toNat),
         none⟩

/-- What a `main` run leaves behind: the process exit code, the lines
printed, and the output file, if any. -/
structure MainResult where
  exitCode : Nat
  lines : List String
  outputFile : Option (List Char × Bytes)
deriving DecidableEq

/-- The usage line printed for a wrong argument count. -/
def usageMsg : String :=
  "Usage: python change_tempo_and_pitch_via_sample_rate <input_wav> <new_sample_rate>"

/-- The line printed when `int(sys.argv[2])` raises `ValueError`. -/
def intErrMsg : String := "Error: The sample rate must be an integer."

/-- The empty string. -/
def emptyStr : String := ""

/-- Model of `int()` applied to a plain decimal literal with an optional sign.
(The whitespace- and underscore-tolerant forms Python also accepts play no
role in any claim and are not modelled.) -/
def pyParseInt (s : String) : Option Int :=
  match s.toList with
  | [] => none
  | c :: cs =>
    if c = '-' then
      if cs ≠ [] ∧ cs.all (fun d => d.isDigit) then
        some (-(cs.foldl (fun a d => 10 * a + (d.toNat - 48)) 0 : Nat))
      else none
    else if c = '+' then
      if cs ≠ [] ∧ cs.all (fun d => d.isDigit) then
        some ((cs.foldl (fun a d => 10 * a + (d.toNat - 48)) 0 : Nat))
      else none
    else if (c :: cs).all (fun d => d.isDigit) then
      some (((c :: cs).foldl (fun a d => 10 * a + (d.toNat - 48)) 0 : Nat))
    else none

/-- Model of `main()` (lines 110-129; named `main_run` because Lean reserves
`main`): exactly two arguments after the program name
(`sys.exit(1)` with a usage line otherwise), an integer rate
(`sys.exit(1)` with an error line otherwise), then one
`change_sample_rate` call and a normal return, which exits the process
with code 0 whatever that call printed. -/
def main_run (argv : List String) (fileBytes : Bytes) : MainResult :=
  if argv.length ≠ 3 then ⟨1, [usageMsg], none⟩
  else
    match pyParseInt (argv.getD 2 emptyStr) with
    | none => ⟨1, [intErrMsg], none⟩
    | some n =>
      ⟨0, [(change_sample_rate (argv.getD 1 emptyStr).toList fileBytes n).printed],
       (change_sample_rate (argv.getD 1 emptyStr).toList fileBytes n).outputFile⟩

/-- A path contains at least one separator character. -/
def sepIn (l : List Char) : Prop := '/' ∈ l ∨ '\\' ∈ l

instance (l : List Char) : Decidable (sepIn l) := by
  unfold sepIn; infer_instance

/-- The characters after the last separator of a string, or the whole
string when it has none.  This follows the specification's wording for the
name component and is compared against `get_path_name` below. -/
def afterLastSep : List Char → List Char
  | [] => []
  | c :: cs =>
    if '/' ∈ cs ∨ '\\' ∈ cs then afterLastSep cs
    else if c = '/' ∨ c = '\\' then cs
    else c :: cs

/-- A string with its last four characters removed (fewer when shorter),
following the specification's wording for dropping the extension. -/
def dropLast4 (l : List Char) : List Char := l.take (l.length - 4)

/-- A concrete input path with a directory component. -/
def exPath : List Char := "a/input.wav".toList

/-- A concrete input path without any directory component. -/
def exBarePath : List Char := "input.wav".toList

/-- Four payload bytes for the example file. -/
def exFrames : Bytes := [10, 20, 30, 40]

/-- A well-formed mono 8-bit 48000 Hz WAV file with four frames. -/
def exFile : Bytes := wavFileBytes 40 4 1 48000 1 exFrames

/-- The parameters and payload `initfp` extracts from `exFile`. -/
def exRead : WavRead := ⟨1, 1, 48000, 4, exFrames⟩

/-- The output path the script derives from `exPath` for 48000 to 50400. -/
def exOutPath : List Char :=
  "a/input--sample_rate_changed__48000_to_50400.wav".toList

/-- The output file written for `exFile` at the new rate 50400. -/
def exOutBytes : Bytes := wavFileBytes 40 4 1 50400 1 exFrames

/-- An 8-byte file that does not start with the RIFF tag. -/
def exBadFile : Bytes := [0, 0, 0, 0, 0, 0, 0, 0]

/-- A WAV file whose data chunk declares 10 payload bytes although only 4
are present, truncated mid-payload. -/
def exTruncFile : Bytes :=
  tagRIFF ++ le32 46 ++ tagWAVE ++ tagFmt ++ le32 16 ++ le16 1 ++ le16 1 ++
    le32 8000 ++ le32 8000 ++ le16 1 ++ le16 8 ++ tagData ++ le32 10 ++
    [1, 2, 3, 4]

/-- The output path the script derives from `exPath` for 8000 to 96000. -/
def exTruncOutPath : List Char :=
  "a/input--sample_rate_changed__8000_to_96000.wav".toList

/-- The output path the script derives from `exPath` for 48000 to the
out-of-range rate 4294967296. -/
def exOverflowOutPath : List Char :=
  "a/input--sample_rate_changed__48000_to_4294967296.wav".toList

/-- The program name used in concrete `main_run` invocations. -/
def exProg : String := "python"

/-- The input-path argument used in concrete `main_run` invocations. -/
def exPathArg : String := "a/input.wav"

/-- The rate argument used in concrete `main_run` invocations. -/
def exRateArg : String := "48000"

/-- Last-index search fails exactly when the character is absent. -/
theorem rfindAux_eq_none {l : List Char} {c : Char} :
    rfindAux l c = none ↔ c ∉ l := by
  induction l with
  | nil => simp [rfindAux]
  | cons a as ih =>
    cases h : rfindAux as c with
    | some i =>
      have hmem : c ∈ as := by
        by_contra hno
        exact absurd (ih.mpr hno) (by simp [h])
      simp only [rfindAux, h]
      simp [List.mem_cons, hmem]
    | none =>
      have hno : c ∉ as := ih.mp h
      simp only [rfindAux, h]
      by_cases hac : a = c
      · simp [hac]
      · simp only [if_neg hac]
        simp [List.mem_cons, hno]
        intro hca
        exact hac hca.symm

/-- A successful last-index search points at an occurrence of the
character. -/
theorem rfindAux_drop {l : List Char} {c : Char} {i : Nat}
    (h : rfindAux l c = some i) : l.drop i = c :: l.drop (i + 1) := by
  induction l generalizing i with
  | nil => simp [rfindAux] at h
  | cons a as ih =>
    cases hr : rfindAux as c with
    | some j =>
      rw [rfindAux, hr] at h
      cases h
      simpa using ih hr
    | none =>
      rw [rfindAux, hr] at h
      by_cases hac : a = c
      · rw [if_pos hac] at h
        cases h
        simp [hac]
      · rw [if_neg hac] at h
        cases h

/-- The found index is inside the list. -/
theorem rfindAux_lt_length {l : List Char} {c : Char} {i : Nat}
    (h : rfindAux l c = some i) : i < l.length := by
  by_contra hge
  have : l.drop i = [] := List.drop_of_length_le (by omega)
  rw [rfindAux_drop h] at this
  cases this

/-- Unfolding of `rfindI` on a successful search. -/
theorem rfindI_eq_of_some {l : List Char} {c : Char} {i : Nat}
    (h : rfindAux l c = some i) : rfindI l c = (i : Int) := by
  unfold rfindI; rw [h]

/-- Unfolding of `rfindI` on a failed search. -/
theorem rfindI_eq_of_none {l : List Char} {c : Char}
    (h : rfindAux l c = none) : rfindI l c = -1 := by
  unfold rfindI; rw [h]

/-- Python's `rfind` result is `-1` exactly when the character is absent. -/
theorem rfindI_neg_iff {l : List Char} {c : Char} :
    rfindI l c < 0 ↔ c ∉ l := by
  cases h : rfindAux l c with
  | some i => rw [rfindI_eq_of_some h]
              simp only [not_lt.mpr (Int.ofNat_nonneg i), false_iff, not_not]
              have := rfindAux_drop h
              have : c ∈ l.drop i := by rw [this]; exact List.mem_cons_self _ _
              exact List.mem_of_mem_drop this
  | none => rw [rfindI_eq_of_none h]
            simp [rfindAux_eq_none.mp h]

/-- A path has a separator exactly when `end_of_path` is a real index. -/
theorem sepIn_iff_end_nonneg {p : List Char} :
    sepIn p ↔ 0 ≤ end_of_path p := by
  unfold sepIn end_of_path
  constructor
  · rintro (h | h) <;>
      [exact le_max_of_le_left (not_lt.mp (fun hlt => (rfindI_neg_iff.mp hlt) h));
       exact le_max_of_le_right (not_lt.mp (fun hlt => (rfindI_neg_iff.mp hlt) h))]
  · intro h
    rcases max_choice (rfindI p '/') (rfindI p '\\') with hm | hm <;> rw [hm] at h
    · exact Or.inl (by by_contra hno; have := rfindI_neg_iff.mpr hno; omega)
    · exact Or.inr (by by_contra hno; have := rfindI_neg_iff.mpr hno; omega)

/-- One-step unfolding of `end_of_path` along a cons cell. -/
theorem end_of_path_cons (c : Char) (cs : List Char) :
    end_of_path (c :: cs) =
      if sepIn cs then end_of_path cs + 1
      else if c = '/' ∨ c = '\\' then 0 else -1 := by
  unfold end_of_path
  cases hs : rfindAux cs '/' with
  | some i =>
    have hmem : '/' ∈ cs := by
      have := rfindAux_drop hs
      exact List.mem_of_mem_drop (by rw [this]; exact List.mem_cons_self _ _)
    rw [if_pos (show sepIn cs from Or.inl hmem)]
    cases hb : rfindAux cs '\\' with
    | some j =>
      rw [rfindI_eq_of_some (show rfindAux (c :: cs) '/' = some (i + 1) by
            rw [rfindAux, hs]),
          rfindI_eq_of_some (show rfindAux (c :: cs) '\\' = some (j + 1) by
            rw [rfindAux, hb]),
          rfindI_eq_of_some hs, rfindI_eq_of_some hb]
      omega
    | none =>
      rw [rfindI_eq_of_some (show rfindAux (c :: cs) '/' = some (i + 1) by
            rw [rfindAux, hs]),
          rfindI_eq_of_some hs, rfindI_eq_of_none hb]
      by_cases hcb : c = '\\'
      · rw [rfindI_eq_of_some (show rfindAux (c :: cs) '\\' = some 0 by
              rw [rfindAux, hb, if_pos hcb])]
        omega
      · rw [rfindI_eq_of_none (show rfindAux (c :: cs) '\\' = none by
              rw [rfindAux, hb, if_neg hcb])]
        omega
  | none =>
    have hnomem : '/' ∉ cs := rfindAux_eq_none.mp hs
    cases hb : rfindAux cs '\\' with
    | some j =>
      have hmem : '\\' ∈ cs := by
        have := rfindAux_drop hb
        exact List.mem_of_mem_drop (by rw [this]; exact List.mem_cons_self _ _)
      rw [if_pos (show sepIn cs from Or.inr hmem)]
      rw [rfindI_eq_of_some (show rfindAux (c :: cs) '\\' = some (j + 1) by
            rw [rfindAux, hb]),
          rfindI_eq_of_some hb, rfindI_eq_of_none hs]
      by_cases hca : c = '/'
      · rw [rfindI_eq_of_some (show rfindAux (c :: cs) '/' = some 0 by
              rw [rfindAux, hs, if_pos hca])]
        omega
      · rw [rfindI_eq_of_none (show rfindAux (c :: cs) '/' = none by
              rw [rfindAux, hs, if_neg hca])]
        omega
    | none =>
      have hnob : '\\' ∉ cs := rfindAux_eq_none.mp hb
      rw [if_neg (show ¬ sepIn cs from by intro h; rcases h with h | h; exacts [hnomem h, hnob h])]
      by_cases hca : c = '/'
      · rw [rfindI_eq_of_some (show rfindAux (c :: cs) '/' = some 0 by
              rw [rfindAux, hs, if_pos hca]),
            rfindI_eq_of_none (show rfindAux (c :: cs) '\\' = none by
              rw [rfindAux, hb, if_neg (by rw [hca]; decide)])]
        rw [if_pos (Or.inl hca)]
        decide
      · by_cases hcb : c = '\\'
        · rw [rfindI_eq_of_none (show rfindAux (c :: cs) '/' = none by
                rw [rfindAux, hs, if_neg hca]),
              rfindI_eq_of_some (show rfindAux (c :: cs) '\\' = some 0 by
                rw [rfindAux, hb, if_pos hcb])]
          rw [if_pos (Or.inr hcb)]
          decide
        · rw [rfindI_eq_of_none (show rfindAux (c :: cs) '/' = none by
                rw [rfindAux, hs, if_neg hca]),
              rfindI_eq_of_none (show rfindAux (c :: cs) '\\' = none by
                rw [rfindAux, hb, if_neg hcb])]
          rw [if_neg (by intro h; rcases h with h | h; exacts [hca h, hcb h])]
          decide

/-- Dropping everything through the last separator gives exactly the
characters after it. -/
theorem drop_end_eq_after (p : List Char) :
    p.drop (end_of_path p + 1).toNat = afterLastSep p := by
  induction p with
  | nil => rfl
  | cons c cs ih =>
    rw [end_of_path_cons, afterLastSep]
    by_cases hs : sepIn cs
    · rw [if_pos hs, if_pos (show ('/' ∈ cs ∨ '\\' ∈ cs) from hs)]
      have hnn : 0 ≤ end_of_path cs := sepIn_iff_end_nonneg.mp hs
      rw [show (end_of_path cs + 1 + 1).toNat = (end_of_path cs + 1).toNat + 1
            from by omega]
      rw [List.drop_succ_cons]
      exact ih
    · rw [if_neg hs, if_neg (show ¬ ('/' ∈ cs ∨ '\\' ∈ cs) from hs)]
      by_cases hc : c = '/' ∨ c = '\\'
      · rw [if_pos hc, if_pos hc]
        rfl
      · rw [if_neg hc, if_neg hc]
        rfl

/-- The characters after the last separator contain no separator. -/
theorem not_sepIn_afterLastSep (p : List Char) : ¬ sepIn (afterLastSep p) := by
  induction p with
  | nil => simp [afterLastSep, sepIn]
  | cons c cs ih =>
    rw [afterLastSep]
    by_cases hs : sepIn cs
    · rw [if_pos (show ('/' ∈ cs ∨ '\\' ∈ cs) from hs)]
      exact ih
    · rw [if_neg (show ¬ ('/' ∈ cs ∨ '\\' ∈ cs) from hs)]
      by_cases hc : c = '/' ∨ c = '\\'
      · rw [if_pos hc]
        exact hs
      · rw [if_neg hc]
        intro hmem
        unfold sepIn at hmem hs
        rcases hmem with h | h <;> rw [List.mem_cons] at h
        · rcases h with h | h
          · exact hc (Or.inl h.symm)
          · exact hs (Or.inl h)
        · rcases h with h | h
          · exact hc (Or.inr h.symm)
          · exact hs (Or.inr h)

/-- C10: for every input string, `get_path_name` unconditionally drops the
last four characters as the extension: the returned name is the substring
between the last separator (or the start of the string) and position
`len - 4`, whether or not the string ends in `.wav`. -/
theorem c10_name_drops_last_four (p : List Char) :
    (get_path_name p).2 = dropLast4 (afterLastSep p) := by
  show (p.take (p.length - 4)).drop (end_of_path p + 1).toNat = _
  rw [List.drop_take, drop_end_eq_after]
  unfold dropLast4
  congr 1
  rw [← drop_end_eq_after, List.length_drop]
  omega

/-- The larger of the two separator searches is attained by one of them. -/
theorem end_attained {p : List Char} (h : 0 ≤ end_of_path p) :
    ∃ c, (c = '/' ∨ c = '\\') ∧ rfindAux p c = some (end_of_path p).toNat := by
  rcases max_choice (rfindI p '/') (rfindI p '\\') with hm | hm
  · refine ⟨'/', Or.inl rfl, ?_⟩
    cases hf : rfindAux p '/' with
    | some i =>
      have hv := rfindI_eq_of_some hf
      have he : end_of_path p = (i : Int) := by rw [end_of_path, hm, hv]
      rw [show (end_of_path p).toNat = i from by omega]
    | none =>
      have hv := rfindI_eq_of_none hf
      have he : end_of_path p = -1 := by rw [end_of_path, hm, hv]
      omega
  · refine ⟨'\\', Or.inr rfl, ?_⟩
    cases hf : rfindAux p '\\' with
    | some i =>
      have hv := rfindI_eq_of_some hf
      have he : end_of_path p = (i : Int) := by rw [end_of_path, hm, hv]
      rw [show (end_of_path p).toNat = i from by omega]
    | none =>
      have hv := rfindI_eq_of_none hf
      have he : end_of_path p = -1 := by rw [end_of_path, hm, hv]
      omega

/-- C9: for a string ending in `.wav` that contains a separator,
`get_path_name` returns a path ending at the last separator together with
a name such that path, name and the extension reconstruct the input
exactly; without a separator the returned path is `None`. -/
theorem c9_path_name_reconstruction (p : List Char) (hsuf : wavExt.IsSuffix p) :
    (sepIn p →
      ∃ pa nm, get_path_name p = (some pa, nm) ∧
        pa ++ (nm ++ wavExt) = p ∧
        (∃ c, (c = '/' ∨ c = '\\') ∧ pa.getLast? = some c) ∧
        ¬ sepIn (p.drop pa.length)) ∧
    (¬ sepIn p → (get_path_name p).1 = none) := by
  constructor
  · intro hs
    have h0 : 0 ≤ end_of_path p := sepIn_iff_end_nonneg.mp hs
    obtain ⟨c, hc, hfind⟩ := end_attained h0
    set n := (end_of_path p).toNat with hn
    have hdrop : p.drop n = c :: p.drop (n + 1) := rfindAux_drop hfind
    have helt : n < p.length := rfindAux_lt_length hfind
    obtain ⟨q, hq⟩ := hsuf
    have hplen : p.length = q.length + 4 := by
      rw [← hq]; simp [wavExt]
    have heq : n < q.length := by
      by_contra hge
      push_neg at hge
      have hsplit : p.drop n = wavExt.drop (n - q.length) := by
        conv_lhs => rw [← hq]
        rw [List.drop_append_eq_append_drop,
          List.drop_of_length_le (by omega), List.nil_append]
      have hhead : (wavExt.drop (n - q.length)).head? = some c := by
        rw [← hsplit, hdrop]; rfl
      have hk4 : n - q.length < 4 := by omega
      set k := n - q.length with hkdef
      interval_cases k <;>
        · have hcx := Option.some.inj hhead
          rcases hc with h | h <;> rw [h] at hcx <;> exact absurd hcx (by decide)
    have he1 : n + 1 ≤ p.length - 4 := by omega
    have htnat : (end_of_path p + 1).toNat = n + 1 := by omega
    refine ⟨p.take (n + 1), (p.take (p.length - 4)).drop (n + 1), ?_, ?_, ?_, ?_⟩
    · unfold get_path_name
      rw [if_pos (by omega : end_of_path p > -1), htnat]
    · have htk : (p.take (p.length - 4)).take (n + 1) = p.take (n + 1) := by
        rw [List.take_take, min_eq_left he1]
      calc p.take (n + 1) ++
            ((p.take (p.length - 4)).drop (n + 1) ++ wavExt)
          = ((p.take (p.length - 4)).take (n + 1) ++
              (p.take (p.length - 4)).drop (n + 1)) ++ wavExt := by
            rw [htk, List.append_assoc]
        _ = p.take (p.length - 4) ++ wavExt := by rw [List.take_append_drop]
        _ = q ++ wavExt := by
            rw [show p.length - 4 = q.length from by omega, ← hq,
              List.take_left]
        _ = p := hq
    · have hlen_take : (p.take n).length = n := by
        rw [List.length_take]; omega
      have hsplit2 : p.take (n + 1) = p.take n ++ [c] := by
        calc p.take (n + 1)
            = (p.take n ++ p.drop n).take (n + 1) := by
              rw [List.take_append_drop]
          _ = (p.take n ++ (c :: p.drop (n + 1))).take (n + 1) := by
              rw [hdrop]
          _ = p.take n ++ (c :: p.drop (n + 1)).take 1 := by
              rw [show n + 1 = (p.take n).length + 1 from by rw [hlen_take]]
              exact List.take_append 1
          _ = p.take n ++ [c] := by simp
      rw [hsplit2]
      exact ⟨c, hc, List.getLast?_concat _⟩
    · rw [List.length_take, min_eq_left (by omega : n + 1 ≤ p.length),
        show n + 1 = (end_of_path p + 1).toNat from htnat.symm,
        drop_end_eq_after]
      exact not_sepIn_afterLastSep p
  · intro hns
    have : end_of_path p < 0 := by
      by_contra hge
      push_neg at hge
      exact hns (sepIn_iff_end_nonneg.mpr hge)
    unfold get_path_name
    rw [if_neg (by omega)]

/-- A concrete path for exercising `get_path_name` claims. -/
def exC9Path : List Char := "a/b.wav".toList

/-- Witness instantiating the C9 reconstruction at a concrete path. -/
theorem c9_path_name_reconstruction_witness :
    (sepIn exC9Path →
      ∃ pa nm, get_path_name exC9Path = (some pa, nm) ∧
        pa ++ (nm ++ wavExt) = exC9Path ∧
        (∃ c, (c = '/' ∨ c = '\\') ∧ pa.getLast? = some c) ∧
        ¬ sepIn (exC9Path.drop pa.length)) ∧
    (¬ sepIn exC9Path → (get_path_name exC9Path).1 = none) :=
  c9_path_name_reconstruction exC9Path (by decide)

/-- Round trip of the 16-bit field through pack and unpack. -/
theorem dec16_le16 {n : Nat} (h : n < 65536) : dec16 (le16 n) = n := by
  simp only [le16, dec16]
  omega

/-- Round trip of the 32-bit field through pack and unpack. -/
theorem dec32_le32 {n : Nat} (h : n < 4294967296) : dec32 (le32 n) = n := by
  simp only [le32, dec32]
  omega

/-- Length of a packed 16-bit field. -/
theorem le16_length (n : Nat) : (le16 n).length = 2 := rfl

/-- Length of a packed 32-bit field. -/
theorem le32_length (n : Nat) : (le32 n).length = 4 := rfl

/-- Length of a serialized WAV file. -/
theorem wavFileBytes_length (riffLen dl nch fr sw : Nat) (frames : Bytes) :
    (wavFileBytes riffLen dl nch fr sw frames).length = 44 + frames.length := by
  simp [wavFileBytes, le16, le32, tagRIFF, tagWAVE, tagFmt, tagData]
  omega

/-- Unfolding equation of one `scanChunks` iteration (stated explicitly
because Lean does not generate equation lemmas for this match shape). -/
theorem scanChunks_succ (fuel d : Nat) (b : Bytes) (fmt : Option FmtInfo) :
    scanChunks (fuel + 1) d b fmt =
      if min d b.length < 8 then .error (.waveError chunkMissingMsg) else
      (if b.take 4 = tagFmt then
        match read_fmt_chunk (dec32 ((b.drop 4).take 4)) (d - 8) (b.drop 8) with
        | .error e => .error e
        | .ok fi =>
          if d - 8 - 16 <
              dec32 ((b.drop 4).take 4) - 16 +
                (if dec32 ((b.drop 4).take 4) % 2 = 1 then 1 else 0) then
            .error .runtimeError
          else
            scanChunks fuel
              (d - 8 - 16 -
                (dec32 ((b.drop 4).take 4) - 16 +
                  (if dec32 ((b.drop 4).take 4) % 2 = 1 then 1 else 0)))
              (((b.drop 8).drop 16).drop
                (dec32 ((b.drop 4).take 4) - 16 +
                  (if dec32 ((b.drop 4).take 4) % 2 = 1 then 1 else 0)))
              (some fi)
      else if b.take 4 = tagData then
        match fmt with
        | none => .error (.waveError dataBeforeFmtMsg)
        | some fi =>
          .ok ⟨fi.nchannels, fi.sampwidth, fi.framerate,
               dec32 ((b.drop 4).take 4) / (fi.nchannels * fi.sampwidth),
               (b.drop 8).take (dec32 ((b.drop 4).take 4))⟩
      else
        if d - 8 <
            dec32 ((b.drop 4).take 4) +
              (if dec32 ((b.drop 4).take 4) % 2 = 1 then 1 else 0) then
          .error .runtimeError
        else
          scanChunks fuel
            (d - 8 -
              (dec32 ((b.drop 4).take 4) +
                (if dec32 ((b.drop 4).take 4) % 2 = 1 then 1 else 0)))
            ((b.drop 8).drop
              (dec32 ((b.drop 4).take 4) +
                (if dec32 ((b.drop 4).take 4) % 2 = 1 then 1 else 0)))
            fmt) := rfl

/-- The format-chunk reader succeeds on a 16-byte PCM format body. -/
theorem read_fmt_chunk_ok {d1 : Nat} {b1 : Bytes} {nch fr sw : Nat}
    (hd1 : 16 ≤ d1) (hb1 : 16 ≤ b1.length)
    (htag : dec16 ((b1.take 14).take 2) = 1)
    (hnch : dec16 (((b1.take 14).drop 2).take 2) = nch)
    (hfr : dec32 (((b1.take 14).drop 4).take 4) = fr)
    (hbits : dec16 ((b1.drop 14).take 2) = sw * 8)
    (hsw : 0 < sw) (hnchpos : 0 < nch) :
    read_fmt_chunk 16 d1 b1 = .ok ⟨nch, sw, fr⟩ := by
  unfold read_fmt_chunk
  rw [htag, hnch, hfr, hbits]
  rw [if_neg (by omega : ¬ (min (min 14 16) (min d1 b1.length) < 14))]
  rw [if_neg (by omega : ¬ (1 : Nat) ≠ 1)]
  rw [if_neg (by omega :
        ¬ (min (min 2 (16 - 14)) (min (d1 - 14) (b1.length - 14)) < 2))]
  rw [if_neg (by omega : ¬ (sw * 8 + 7) / 8 = 0)]
  rw [if_neg (by omega : ¬ nch = 0)]
  rw [show (sw * 8 + 7) / 8 = sw from by omega]

/-- One loop iteration over a 16-byte PCM format chunk: record its fields
and move past it. -/
theorem scan_fmt_step {fuel d : Nat} {b : Bytes} {fmt0 : Option FmtInfo}
    {nch fr sw : Nat}
    (hd : 24 ≤ d) (hb : 24 ≤ b.length)
    (hfmt : b.take 4 = tagFmt)
    (hsz : dec32 ((b.drop 4).take 4) = 16)
    (hok : read_fmt_chunk 16 (d - 8) (b.drop 8) = .ok ⟨nch, sw, fr⟩) :
    scanChunks (fuel + 1) d b fmt0 =
      scanChunks fuel (d - 24) ((b.drop 8).drop 16) (some ⟨nch, sw, fr⟩) := by
  rw [scanChunks_succ, hsz]
  rw [if_neg (by omega : ¬ (min d b.length < 8))]
  rw [if_pos hfmt]
  simp only [hok]
  rw [show (16 : Nat) - 16 + (if (16 : Nat) % 2 = 1 then 1 else 0) = 0
        from by decide]
  rw [if_neg (by omega : ¬ (d - 8 - 16 < 0))]
  rw [Nat.sub_zero, List.drop_zero, show d - 8 - 16 = d - 24 from by omega]

/-- One loop iteration hitting the data chunk: the read side is done. -/
theorem scan_data_step {fuel d : Nat} {b : Bytes} {fi : FmtInfo} {dsz : Nat}
    (hd : 8 ≤ d) (hb : 8 ≤ b.length)
    (hdata : b.take 4 = tagData)
    (hsz : dec32 ((b.drop 4).take 4) = dsz) :
    scanChunks (fuel + 1) d b (some fi) =
      .ok ⟨fi.nchannels, fi.sampwidth, fi.framerate,
           dsz / (fi.nchannels * fi.sampwidth), (b.drop 8).take dsz⟩ := by
  rw [scanChunks_succ, hsz, hdata]
  rw [if_neg (by omega : ¬ (min d b.length < 8))]
  rw [if_neg (by decide : ¬ (tagData = tagFmt))]
  rw [if_pos rfl]

set_option maxHeartbeats 2000000 in
/-- Reading back a file in the exact layout the writer emits recovers the
written parameters and payload. -/
theorem initfp_wavFileBytes {nch fr sw : Nat} (frames : Bytes)
    (h1 : 0 < nch) (h2 : nch < 65536) (h3 : 0 < sw) (h4 : sw ≤ 4)
    (h5 : fr < 4294967296) (h6 : 36 + frames.length < 4294967296) :
    initfp (wavFileBytes (36 + frames.length) frames.length nch fr sw frames) =
      .ok ⟨nch, sw, fr, frames.length / (nch * sw), frames⟩ := by
  have hWlen := wavFileBytes_length (36 + frames.length) frames.length nch fr sw frames
  unfold initfp
  rw [if_neg (by rw [hWlen]; omega)]
  rw [if_neg (by rw [hWlen]; omega)]
  rw [if_neg (by
    rw [show (wavFileBytes (36 + frames.length) frames.length nch fr sw
          frames).take 4 = tagRIFF from rfl]
    exact fun h => h rfl)]
  rw [show ((wavFileBytes (36 + frames.length) frames.length nch fr sw
        frames).drop 4).take 4 = le32 (36 + frames.length) from rfl]
  rw [dec32_le32 h6]
  rw [if_neg (by
    rw [show min 4 (36 + frames.length) = 4 from by omega]
    rw [show ((wavFileBytes (36 + frames.length) frames.length nch fr sw
          frames).drop 8).take 4 = tagWAVE from rfl]
    exact fun h => h rfl)]
  rw [show (36 + frames.length) - 4 = 32 + frames.length from by omega]
  set X := (wavFileBytes (36 + frames.length) frames.length nch fr sw
    frames).drop 12 with hXdef
  have hX : X = tagFmt ++ le32 16 ++ le16 1 ++ le16 nch ++ le32 fr ++
      le32 (nch * fr * sw) ++ le16 (nch * sw) ++ le16 (sw * 8) ++ tagData ++
      le32 frames.length ++ frames := rfl
  have hXlen : X.length = 32 + frames.length := by
    rw [hX]; simp [le16, le32, tagFmt, tagData]; omega
  rw [List.take_of_length_le (le_of_eq hXlen)]
  rw [show (36 + frames.length) + 5 = ((36 + frames.length) + 4) + 1
        from by omega]
  have hA : 24 ≤ 32 + frames.length := by omega
  have hB : 24 ≤ X.length := by omega
  have hC : X.take 4 = tagFmt := by rw [hX]; rfl
  have hD : dec32 ((X.drop 4).take 4) = 16 := by
    rw [show (X.drop 4).take 4 = le32 16 from by rw [hX]; rfl]
    exact dec32_le32 (by omega)
  have hE : read_fmt_chunk 16 ((32 + frames.length) - 8) (X.drop 8) =
      .ok ⟨nch, sw, fr⟩ := by
    apply read_fmt_chunk_ok (by omega) (by rw [List.length_drop, hXlen]; omega)
    · rw [show ((X.drop 8).take 14).take 2 = le16 1 from by rw [hX]; rfl]
      exact dec16_le16 (by omega)
    · rw [show (((X.drop 8).take 14).drop 2).take 2 = le16 nch from by rw [hX]; rfl]
      exact dec16_le16 h2
    · rw [show (((X.drop 8).take 14).drop 4).take 4 = le32 fr from by rw [hX]; rfl]
      exact dec32_le32 h5
    · rw [show ((X.drop 8).drop 14).take 2 = le16 (sw * 8) from by rw [hX]; rfl]
      exact dec16_le16 (by omega)
    · exact h3
    · exact h1
  rw [scan_fmt_step hA hB hC hD hE]
  rw [show (32 + frames.length) - 24 = 8 + frames.length from by omega]
  rw [show (X.drop 8).drop 16 = tagData ++ le32 frames.length ++ frames
        from by rw [hX]; rfl]
  rw [show (36 + frames.length) + 4 = ((36 + frames.length) + 3) + 1
        from by omega]
  have hG : 8 ≤ 8 + frames.length := by omega
  have hH : 8 ≤ (tagData ++ le32 frames.length ++ frames).length := by
    simp [tagData, le32]
  have hI : (tagData ++ le32 frames.length ++ frames).take 4 = tagData := rfl
  have hJ : dec32 (((tagData ++ le32 frames.length ++ frames).drop 4).take 4) =
      frames.length := by
    rw [show ((tagData ++ le32 frames.length ++ frames).drop 4).take 4 =
          le32 frames.length from rfl]
    exact dec32_le32 (by omega)
  rw [scan_data_step hG hH hI hJ]
  rw [show (tagData ++ le32 frames.length ++ frames).drop 8 = frames from rfl]
  rw [List.take_length]

set_option maxHeartbeats 1000000 in
/-- Patching the two length fields in place rewrites exactly those fields. -/
theorem spliceAt_wavFileBytes (a a2 dl dl2 nch fr sw : Nat) (frames : Bytes) :
    spliceAt (spliceAt (wavFileBytes a dl nch fr sw frames) 4 (le32 a2)) 40
      (le32 dl2) = wavFileBytes a2 dl2 nch fr sw frames := rfl

/-- Patched or not, the final output carries the written payload length in
both length fields. -/
theorem writtenBytes_eq (r : WavRead) (fr : Nat) :
    writtenBytes r fr =
      wavFileBytes (36 + (frameBytes r).length) (frameBytes r).length
        r.nchannels fr r.sampwidth (frameBytes r) := by
  unfold writtenBytes
  by_cases h : datalength r = (frameBytes r).length
  · rw [if_pos h, h]
  · rw [if_neg h, spliceAt_wavFileBytes]

/-- The payload actually read never exceeds the declared data length. -/
theorem frames_le_datalength (r : WavRead) :
    (frameBytes r).length ≤ datalength r := by
  unfold datalength frameBytes
  by_cases h : r.nframes = 0
  · simp [h]
  · rw [if_neg h, List.length_take]
    exact min_le_left _ _

/-- Outcome of a run whose input fails to parse. -/
theorem change_parse_error {p : List Char} {f : Bytes} {rate : Int} {e : PyExc}
    (h : initfp f = .error e) :
    change_sample_rate p f rate = ⟨errLine e, none, some e⟩ := by
  unfold change_sample_rate
  rw [h]

/-- Outcome of a run whose input path has no separator: the `TypeError`
from `None + str`, and no output file. -/
theorem change_no_sep {p : List Char} {f : Bytes} {rate : Int} {r : WavRead}
    (hp : initfp f = .ok r) (hn : (get_path_name p).1 = none) :
    change_sample_rate p f rate =
      ⟨errLine (.typeError noneAddMsg), none, some (.typeError noneAddMsg)⟩ := by
  unfold change_sample_rate
  simp only [hp, hn]

/-- Outcome when `setnchannels` rejects the channel count. -/
theorem change_bad_nch {p : List Char} {f : Bytes} {rate : Int} {r : WavRead}
    {path : List Char} (hp : initfp f = .ok r)
    (hs : (get_path_name p).1 = some path) (h1 : r.nchannels < 1) :
    change_sample_rate p f rate =
      ⟨errLine (.waveError chanNotSpecMsg),
       some (outputName p path r.framerate rate, []),
       some (.waveError chanNotSpecMsg)⟩ := by
  unfold change_sample_rate
  simp only [hp, hs]
  rw [if_pos h1]

/-- Outcome when `setsampwidth` rejects the sample width. -/
theorem change_bad_sw {p : List Char} {f : Bytes} {rate : Int} {r : WavRead}
    {path : List Char} (hp : initfp f = .ok r)
    (hs : (get_path_name p).1 = some path) (h1 : ¬ r.nchannels < 1)
    (h2 : r.sampwidth < 1 ∨ 4 < r.sampwidth) :
    change_sample_rate p f rate =
      ⟨errLine (.waveError sampNotSpecMsg),
       some (outputName p path r.framerate rate, []),
       some (.waveError sampNotSpecMsg)⟩ := by
  unfold change_sample_rate
  simp only [hp, hs]
  rw [if_neg h1, if_pos h2]

/-- Outcome when `setframerate` rejects a non-positive rate: the output
file exists but is empty, and the error reaching the handler is the one
`close()` raises. -/
theorem change_bad_rate {p : List Char} {f : Bytes} {rate : Int} {r : WavRead}
    {path : List Char} (hp : initfp f = .ok r)
    (hs : (get_path_name p).1 = some path) (h1 : ¬ r.nchannels < 1)
    (h2 : ¬ (r.sampwidth < 1 ∨ 4 < r.sampwidth)) (h3 : rate ≤ 0) :
    change_sample_rate p f rate =
      ⟨errLine (.waveError rateNotSpecMsg),
       some (outputName p path r.framerate rate, []),
       some (.waveError rateNotSpecMsg)⟩ := by
  unfold change_sample_rate
  simp only [hp, hs]
  rw [if_neg h1, if_neg h2, if_pos h3]

/-- Outcome when a header field overflows `struct.pack`: the output file
holds the two stray RIFF tags of the two write attempts. -/
theorem change_overflow {p : List Char} {f : Bytes} {rate : Int} {r : WavRead}
    {path : List Char} (hp : initfp f = .ok r)
    (hs : (get_path_name p).1 = some path) (h1 : ¬ r.nchannels < 1)
    (h2 : ¬ (r.sampwidth < 1 ∨ 4 < r.sampwidth)) (h3 : ¬ rate ≤ 0)
    (h4 : packOverflow r rate.toNat) :
    change_sample_rate p f rate =
      ⟨errLine .structError,
       some (outputName p path r.framerate rate, tagRIFF ++ tagRIFF),
       some .structError⟩ := by
  unfold change_sample_rate
  simp only [hp, hs]
  rw [if_neg h1, if_neg h2, if_neg h3, if_pos h4]

/-- Outcome of a fully successful run. -/
theorem change_success {p : List Char} {f : Bytes} {rate : Int} {r : WavRead}
    {path : List Char} (hp : initfp f = .ok r)
    (hs : (get_path_name p).1 = some path) (h1 : ¬ r.nchannels < 1)
    (h2 : ¬ (r.sampwidth < 1 ∨ 4 < r.sampwidth)) (h3 : ¬ rate ≤ 0)
    (h4 : ¬ packOverflow r rate.toNat) :
    change_sample_rate p f rate =
      ⟨okLine r.framerate rate (outputName p path r.framerate rate),
       some (outputName p path r.framerate rate, writtenBytes r rate.toNat),
       none⟩ := by
  unfold change_sample_rate
  simp only [hp, hs]
  rw [if_neg h1, if_neg h2, if_neg h3, if_neg h4]

/-- A run that ends without an exception and leaves an output file must
have taken the success path: the output bytes are the serialized header
and payload, and every header field was in range. -/
theorem change_ok_inv {p : List Char} {f : Bytes} {rate : Int} {r : WavRead}
    {op : List Char} {ob : Bytes}
    (hparse : initfp f = .ok r)
    (herr : (change_sample_rate p f rate).err = none)
    (hout : (change_sample_rate p f rate).outputFile = some (op, ob)) :
    ob = wavFileBytes (36 + (frameBytes r).length) (frameBytes r).length
        r.nchannels rate.toNat r.sampwidth (frameBytes r) ∧
      0 < r.nchannels ∧ r.nchannels < 65536 ∧ 1 ≤ r.sampwidth ∧
      r.sampwidth ≤ 4 ∧ 0 < rate ∧ rate.toNat < 4294967296 ∧
      36 + (frameBytes r).length < 4294967296 := by
  rcases hpn : (get_path_name p).1 with _ | path
  · rw [change_no_sep hparse hpn] at herr
    simp at herr
  · by_cases h1 : r.nchannels < 1
    · rw [change_bad_nch hparse hpn h1] at herr
      simp at herr
    by_cases h2 : r.sampwidth < 1 ∨ 4 < r.sampwidth
    · rw [change_bad_sw hparse hpn h1 h2] at herr
      simp at herr
    by_cases h3 : rate ≤ 0
    · rw [change_bad_rate hparse hpn h1 h2 h3] at herr
      simp at herr
    by_cases h4 : packOverflow r rate.toNat
    · rw [change_overflow hparse hpn h1 h2 h3 h4] at herr
      simp at herr
    rw [change_success hparse hpn h1 h2 h3 h4] at hout
    simp only [Option.some.injEq, Prod.mk.injEq] at hout
    obtain ⟨hop, hob⟩ := hout
    unfold packOverflow at h4
    push_neg at h4
    obtain ⟨k1, k2, k3, k4, k5, k6⟩ := h4
    push_neg at h2
    have hfl := frames_le_datalength r
    refine ⟨?_, by omega, by omega, by omega, by omega, by omega, by omega,
      by omega⟩
    rw [← hob, writtenBytes_eq]

/-- A separator in the path makes `get_path_name` return a real prefix. -/
theorem gpn_some_of_sep {p : List Char} (h : sepIn p) :
    (get_path_name p).1 = some (p.take (end_of_path p + 1).toNat) := by
  have h0 := sepIn_iff_end_nonneg.mp h
  unfold get_path_name
  rw [if_pos (by omega)]

/-- C1: for a valid WAV input (parse succeeds and the declared payload is
fully present) and a positive new rate, whenever the run completes and
leaves an output file, that file parses back with frame bytes identical to
the input's frame bytes. -/
theorem c1_frame_bytes_roundtrip {p : List Char} {f : Bytes} {rate : Int}
    {r : WavRead} {op : List Char} {ob : Bytes}
    (hparse : initfp f = .ok r)
    (hvalid : r.nframes * (r.nchannels * r.sampwidth) ≤ r.dataAvail.length)
    (hrate : 0 < rate)
    (herr : (change_sample_rate p f rate).err = none)
    (hout : (change_sample_rate p f rate).outputFile = some (op, ob)) :
    ∃ r2, initfp ob = .ok r2 ∧ frameBytes r2 = frameBytes r := by
  obtain ⟨hob, hnch, hnch2, hsw1, hsw2, hrpos, hr32, h36⟩ :=
    change_ok_inv hparse herr hout
  have hparse2 := initfp_wavFileBytes (frameBytes r) hnch hnch2 (by omega)
    hsw2 hr32 h36
  rw [← hob] at hparse2
  have hfs : 0 < r.nchannels * r.sampwidth := Nat.mul_pos hnch (by omega)
  have hlen : (frameBytes r).length =
      r.nframes * (r.nchannels * r.sampwidth) := by
    unfold frameBytes
    rw [List.length_take]
    omega
  refine ⟨_, hparse2, ?_⟩
  show (frameBytes r).take
      ((frameBytes r).length / (r.nchannels * r.sampwidth) *
        (r.nchannels * r.sampwidth)) = frameBytes r
  rw [hlen, Nat.mul_div_cancel _ hfs, ← hlen, List.take_length]

/-- Witness for C1 at a concrete file and rate. -/
theorem c1_frame_bytes_roundtrip_witness :
    ∃ r2, initfp exOutBytes = .ok r2 ∧ frameBytes r2 = frameBytes exRead :=
  @c1_frame_bytes_roundtrip exPath exFile 50400 exRead exOutPath exOutBytes
    (by decide) (by decide) (by decide) (by decide) (by decide)

/-- C3: under the same validity, the non-rate header fields of the output
(channel count, sample width, frame count) equal the input's. -/
theorem c3_header_fields_preserved {p : List Char} {f : Bytes} {rate : Int}
    {r : WavRead} {op : List Char} {ob : Bytes}
    (hparse : initfp f = .ok r)
    (hvalid : r.nframes * (r.nchannels * r.sampwidth) ≤ r.dataAvail.length)
    (hrate : 0 < rate)
    (herr : (change_sample_rate p f rate).err = none)
    (hout : (change_sample_rate p f rate).outputFile = some (op, ob)) :
    ∃ r2, initfp ob = .ok r2 ∧ r2.nchannels = r.nchannels ∧
      r2.sampwidth = r.sampwidth ∧ r2.nframes = r.nframes := by
  obtain ⟨hob, hnch, hnch2, hsw1, hsw2, hrpos, hr32, h36⟩ :=
    change_ok_inv hparse herr hout
  have hparse2 := initfp_wavFileBytes (frameBytes r) hnch hnch2 (by omega)
    hsw2 hr32 h36
  rw [← hob] at hparse2
  have hfs : 0 < r.nchannels * r.sampwidth := Nat.mul_pos hnch (by omega)
  have hlen : (frameBytes r).length =
      r.nframes * (r.nchannels * r.sampwidth) := by
    unfold frameBytes
    rw [List.length_take]
    omega
  refine ⟨_, hparse2, rfl, rfl, ?_⟩
  show (frameBytes r).length / (r.nchannels * r.sampwidth) = r.nframes
  rw [hlen, Nat.mul_div_cancel _ hfs]

/-- Witness for C3 at a concrete file and rate. -/
theorem c3_header_fields_preserved_witness :
    ∃ r2, initfp exOutBytes = .ok r2 ∧ r2.nchannels = exRead.nchannels ∧
      r2.sampwidth = exRead.sampwidth ∧ r2.nframes = exRead.nframes :=
  @c3_header_fields_preserved exPath exFile 50400 exRead exOutPath exOutBytes
    (by decide) (by decide) (by decide) (by decide) (by decide)

/-- C2 counterexample: at the positive rate 4294967296 the header pack
overflows; the run errors out and the output file holds two stray RIFF
tags instead of a WAV header, so no sample-rate field equals the supplied
rate. -/
theorem c2_rate_overflow_counterexample :
    change_sample_rate exPath exFile 4294967296 =
      ⟨errLine .structError, some (exOverflowOutPath, tagRIFF ++ tagRIFF),
       some .structError⟩ ∧
      initfp (tagRIFF ++ tagRIFF) = .error (.waveError notWaveMsg) := by
  decide

/-- C2 amended: for every run that completes with an output file (which
requires the rate and the derived byte-rate to fit their unsigned header
fields), the output's sample-rate field equals exactly the supplied
rate. -/
theorem c2_sample_rate_substituted {p : List Char} {f : Bytes} {rate : Int}
    {r : WavRead} {op : List Char} {ob : Bytes}
    (hparse : initfp f = .ok r)
    (hrate : 0 < rate)
    (herr : (change_sample_rate p f rate).err = none)
    (hout : (change_sample_rate p f rate).outputFile = some (op, ob)) :
    ∃ r2, initfp ob = .ok r2 ∧ (r2.framerate : Int) = rate := by
  obtain ⟨hob, hnch, hnch2, hsw1, hsw2, hrpos, hr32, h36⟩ :=
    change_ok_inv hparse herr hout
  have hparse2 := initfp_wavFileBytes (frameBytes r) hnch hnch2 (by omega)
    hsw2 hr32 h36
  rw [← hob] at hparse2
  refine ⟨_, hparse2, ?_⟩
  show ((rate.toNat : Int)) = rate
  omega

/-- Witness for the amended C2 at a concrete file and rate. -/
theorem c2_sample_rate_substituted_witness :
    ∃ r2, initfp exOutBytes = .ok r2 ∧ (r2.framerate : Int) = 50400 :=
  @c2_sample_rate_substituted exPath exFile 50400 exRead exOutPath exOutBytes
    (by decide) (by decide) (by decide) (by decide)

/-- C8 counterexample: a file whose data chunk declares 10 bytes while
only 4 exist is not rejected; the run succeeds and writes an output
containing just the 4 available bytes. -/
theorem c8_truncated_accepted_counterexample :
    change_sample_rate exPath exTruncFile 96000 =
      ⟨okLine 8000 96000 exTruncOutPath,
       some (exTruncOutPath, wavFileBytes 40 4 1 96000 1 [1, 2, 3, 4]),
       none⟩ := by
  decide

/-- C8 amended: when the declared payload exceeds the bytes present, the
input is not rejected; any completed run writes an output whose payload is
exactly the bytes that were available. -/
theorem c8_truncated_copies_available {p : List Char} {f : Bytes} {rate : Int}
    {r : WavRead} {op : List Char} {ob : Bytes}
    (hparse : initfp f = .ok r)
    (htrunc : r.dataAvail.length < r.nframes * (r.nchannels * r.sampwidth))
    (herr : (change_sample_rate p f rate).err = none)
    (hout : (change_sample_rate p f rate).outputFile = some (op, ob)) :
    ∃ r2, initfp ob = .ok r2 ∧ r2.dataAvail = r.dataAvail := by
  obtain ⟨hob, hnch, hnch2, hsw1, hsw2, hrpos, hr32, h36⟩ :=
    change_ok_inv hparse herr hout
  have hparse2 := initfp_wavFileBytes (frameBytes r) hnch hnch2 (by omega)
    hsw2 hr32 h36
  rw [← hob] at hparse2
  refine ⟨_, hparse2, ?_⟩
  show frameBytes r = r.dataAvail
  unfold frameBytes
  exact List.take_of_length_le (by omega)

/-- Witness for the amended C8 at the concrete truncated file. -/
theorem c8_truncated_copies_available_witness :
    ∃ r2, initfp (wavFileBytes 40 4 1 96000 1 [1, 2, 3, 4]) = .ok r2 ∧
      r2.dataAvail = [1, 2, 3, 4] :=
  @c8_truncated_copies_available exPath exTruncFile 96000 ⟨1, 1, 8000, 10, [1, 2, 3, 4]⟩
    exTruncOutPath (wavFileBytes 40 4 1 96000 1 [1, 2, 3, 4])
    (by decide) (by decide) (by decide) (by decide)

/-- C4: on the bare input name `input.wav` the script's own documented
example, `get_path_name` returns `None` for the path, `None + str` raises
`TypeError`, the error is printed, and no output file is created — instead
of the documented `input--sample_rate_changed__48000_to_50400.wav`. -/
theorem c4_bare_input_typeerror :
    change_sample_rate exBarePath exFile 50400 =
      ⟨errLine (.typeError noneAddMsg), none,
       some (.typeError noneAddMsg)⟩ := by
  decide

/-- C6: a non-positive rate makes `setframerate` fail; the run ends with
the `wave.Error` surfaced by the output file's `close()` (the original
`bad frame rate` error is superseded during cleanup), and the output file
that was already created stays empty — no field substitution happened. -/
theorem c6_nonpositive_rate_rejected {p : List Char} {f : Bytes} {rate : Int}
    {r : WavRead} (hparse : initfp f = .ok r) (hsep : sepIn p)
    (hnch : 0 < r.nchannels) (hsw1 : 1 ≤ r.sampwidth) (hsw4 : r.sampwidth ≤ 4)
    (hrate : rate ≤ 0) :
    ∃ op, change_sample_rate p f rate =
      ⟨errLine (.waveError rateNotSpecMsg), some (op, []),
       some (.waveError rateNotSpecMsg)⟩ :=
  ⟨_, change_bad_rate hparse (gpn_some_of_sep hsep) (by omega) (by omega)
    hrate⟩

/-- Witness for C6 at the concrete file and rate zero. -/
theorem c6_nonpositive_rate_rejected_witness :
    ∃ op, change_sample_rate exPath exFile 0 =
      ⟨errLine (.waveError rateNotSpecMsg), some (op, []),
       some (.waveError rateNotSpecMsg)⟩ :=
  @c6_nonpositive_rate_rejected exPath exFile 0 exRead
    (by decide) (by decide) (by decide) (by decide) (by decide) (by decide)

/-- C7 counterexample: the four-byte file `WAVE` has first four bytes
different from `RIFF`, yet it is rejected with a bare `EOFError` (raised
while reading the outer chunk size), not with either of the malformed
container `wave.Error`s. -/
theorem c7_short_file_counterexample :
    change_sample_rate exPath tagWAVE 48000 =
      ⟨errLine .eofError, none, some .eofError⟩ ∧
      PyExc.eofError ≠ .waveError notRiffMsg ∧
      PyExc.eofError ≠ .waveError notWaveMsg := by
  decide

/-- C7 amended: every file of at least eight bytes whose first four bytes
are not `RIFF` is rejected with the malformed-container error, and no
output file is created (shorter files are rejected too, but with
`EOFError`). -/
theorem c7_non_riff_rejected {p : List Char} {f : Bytes} {rate : Int}
    (hlen : 8 ≤ f.length) (hriff : f.take 4 ≠ tagRIFF) :
    change_sample_rate p f rate =
      ⟨errLine (.waveError notRiffMsg), none,
       some (.waveError notRiffMsg)⟩ := by
  apply change_parse_error
  unfold initfp
  rw [if_neg (by omega), if_neg (by omega), if_pos hriff]

/-- Witness for the amended C7 at a concrete non-RIFF file. -/
theorem c7_non_riff_rejected_witness :
    change_sample_rate exPath exBadFile 48000 =
      ⟨errLine (.waveError notRiffMsg), none,
       some (.waveError notRiffMsg)⟩ :=
  @c7_non_riff_rejected exPath exBadFile 48000 (by decide) (by decide)

/-- Every caught exception is reported on the printed line as
`Error:` followed by its message. -/
theorem change_err_printed {p : List Char} {f : Bytes} {rate : Int} {e : PyExc}
    (h : (change_sample_rate p f rate).err = some e) :
    (change_sample_rate p f rate).printed = errLine e := by
  cases hparse : initfp f with
  | error e0 =>
    rw [change_parse_error hparse] at h ⊢
    obtain rfl : e0 = e := by simpa using h
    rfl
  | ok r =>
    rcases hpn : (get_path_name p).1 with _ | path
    · rw [change_no_sep hparse hpn] at h ⊢
      obtain rfl : PyExc.typeError noneAddMsg = e := by simpa using h
      rfl
    · by_cases h1 : r.nchannels < 1
      · rw [change_bad_nch hparse hpn h1] at h ⊢
        obtain rfl : PyExc.waveError chanNotSpecMsg = e := by simpa using h
        rfl
      by_cases h2 : r.sampwidth < 1 ∨ 4 < r.sampwidth
      · rw [change_bad_sw hparse hpn h1 h2] at h ⊢
        obtain rfl : PyExc.waveError sampNotSpecMsg = e := by simpa using h
        rfl
      by_cases h3 : rate ≤ 0
      · rw [change_bad_rate hparse hpn h1 h2 h3] at h ⊢
        obtain rfl : PyExc.waveError rateNotSpecMsg = e := by simpa using h
        rfl
      by_cases h4 : packOverflow r rate.toNat
      · rw [change_overflow hparse hpn h1 h2 h3 h4] at h ⊢
        obtain rfl : PyExc.structError = e := by simpa using h
        rfl
      · rw [change_success hparse hpn h1 h2 h3 h4] at h
        simp at h

/-- C5 counterexample: a parse error is caught and printed as an `Error:`
line, but the process then exits with code 0, not a non-zero code. -/
theorem c5_exit_code_zero_counterexample :
    main_run [exProg, exPathArg, exRateArg] exBadFile =
      ⟨0, [errLine (.waveError notRiffMsg)], none⟩ := by
  decide

/-- C5 amended: every I/O or parsing error inside `change_sample_rate` is
caught and reported as a single `Error:` line, but the process exit code
is 0; only the wrong-argument-count and non-integer-rate paths exit with
code 1. -/
theorem c5_errors_caught_printed {pg fp rs : String} {f : Bytes} {n : Int}
    {e : PyExc} (hn : pyParseInt rs = some n)
    (he : (change_sample_rate fp.toList f n).err = some e) :
    (main_run [pg, fp, rs] f).exitCode = 0 ∧
      (main_run [pg, fp, rs] f).lines = [errLine e] := by
  unfold main_run
  rw [if_neg (by simp)]
  simp only [show ([pg, fp, rs].getD 2 emptyStr) = rs from rfl,
    show ([pg, fp, rs].getD 1 emptyStr) = fp from rfl, hn]
  exact ⟨trivial, by rw [change_err_printed he]⟩

/-- Witness for the amended C5 at a concrete failing run. -/
theorem c5_errors_caught_printed_witness :
    (main_run [exProg, exPathArg, exRateArg] exBadFile).exitCode = 0 ∧
      (main_run [exProg, exPathArg, exRateArg] exBadFile).lines =
        [errLine (.waveError notRiffMsg)] :=
  @c5_errors_caught_printed exProg exPathArg exRateArg exBadFile 48000
    (.waveError notRiffMsg) (by decide) (by decide)
